import Mathlib

/-!
Shallow embedding of the HDF5-UDF C++ backend (`cpp_backend.cpp`) and of the
sandbox helper library (`sandbox_library.cpp`).

Bytes are modelled as natural numbers, C buffers and strings as lists,
`size_t`/`uint64_t` arithmetic as arithmetic modulo `2 ^ 64`, and operating
system effects (fork, file system, mmap, glob, the preprocessor pipe) as
explicit environment records whose fields carry the results the kernel would
hand back to the program.
-/

/-- Modulus of `size_t` / `uint64_t` arithmetic: values wrap modulo `2 ^ 64`. -/
def SIZE_MOD : Nat := 2 ^ 64

/-- Little-endian encoding of a `uint64_t` value into its 8 bytes, as laid
down by `memcpy(&compressed[csize], &usize, sizeof(uint64_t))` in
`CppBackend::compressBuffer`. -/
def u64leEncode (n : Nat) : List Nat :=
  (List.range 8).map (fun i => n / 256 ^ i % 256)

/-- Little-endian decoding of an 8-byte `uint64_t` trailer, as performed by
`memcpy(&usize, &data[csize-sizeof(uint64_t)], sizeof(uint64_t))` in
`CppBackend::decompressBuffer`. -/
def u64leDecode (bs : List Nat) : Nat :=
  (bs.take 8).foldr (fun b acc => acc * 256 + b) 0

/-- Bounds-checked read of `len` bytes at offset `off` of a buffer: `none`
models a read that runs past the end of the allocation (undefined behaviour
in the C source). -/
def readBytes (mem : List Nat) (off len : Nat) : Option (List Nat) :=
  if off + len ≤ mem.length then some ((mem.drop off).take len) else none

/-- Effect of `std::string::resize n` on the byte contents: truncate, or pad
with zero bytes. -/
def resizeTo (n : Nat) (xs : List Nat) : List Nat :=
  xs.take n ++ List.replicate (n - xs.length) 0

/-- Modelled from the spec: the compression primitive (`mz_compress` /
`mz_uncompress` from miniz, which is not among the sources shown) is treated
as an opaque deflate-class byte codec.  `comp x = none` models a status other
than `Z_OK` from `mz_compress`; `uncomp src cap` receives the source bytes and
the destination capacity (the trailer value) and yields the decompressed
bytes, `none` modelling a status other than `Z_OK` from `mz_uncompress`. -/
structure Codec where
  comp : List Nat → Option (List Nat)
  uncomp : List Nat → Nat → Option (List Nat)

/-- Modelled from the spec: a concrete stand-in for the opaque deflate-class
codec, used to instantiate witnesses.  Like deflate it reports success on
every input — including the empty input — and it round-trips. -/
def mzCodec : Codec where
  comp := fun x => some x
  uncomp := fun src cap => some (src.take cap)

/-- Marker for undefined behaviour: an out-of-bounds buffer read. -/
inductive UB where
  | oobRead
deriving DecidableEq

namespace CppBackend

/-- `CppBackend::compressBuffer` (cpp_backend.cpp lines 102-119): compress
`data`; on failure print a diagnostic and return the empty string; on success
store the original size as an 8-byte little-endian trailer at offset `csize`
and resize to `csize + sizeof(uint64_t)`, so the returned bytes are the
compressed payload followed by the trailer. -/
def compressBuffer (C : Codec) (data : List Nat) : List Nat :=
  match C.comp data with
  | none => []
  | some c => c ++ u64leEncode (data.length % SIZE_MOD)

/-- `CppBackend::decompressBuffer` (cpp_backend.cpp lines 122-141): read the
8-byte trailer at offset `csize - sizeof(uint64_t)` (computed in `size_t`
arithmetic, with no length check — an out-of-bounds read when the input is
shorter than 8 bytes), shrink `csize` by 8, resize the output string to the
trailer value `usize`, and decompress; on a status other than `Z_OK` print a
diagnostic and return the empty string. -/
def decompressBuffer (C : Codec) (data : List Nat) : Except UB (List Nat) :=
  match readBytes data ((data.length + (SIZE_MOD - 8)) % SIZE_MOD) 8 with
  | none => .error .oobRead
  | some trailer =>
    match C.uncomp (data.take ((data.length + (SIZE_MOD - 8)) % SIZE_MOD))
        (u64leDecode trailer) with
    | none => .ok []
    | some u => .ok (resizeTo (u64leDecode trailer) u)

/-- A dataset descriptor (`DatasetInfo` from dataset.h, whose fields and
accessors are used by `CppBackend::run`): a name, dimension extents, the
per-element storage size, and the byte contents of its data buffer. -/
structure DatasetInfo where
  name : String
  dimensions : List Nat
  storageSize : Nat
  data : List Nat
deriving DecidableEq

/-- Modelled from the spec: `getGridSize` (dataset.h is not among the sources
shown) returns `grid_size = product(dimensions)`. -/
def DatasetInfo.getGridSize (d : DatasetInfo) : Nat := d.dimensions.prod

/-- Modelled from the spec: `getStorageSize` (dataset.h is not among the
sources shown) returns the element storage size in bytes. -/
def DatasetInfo.getStorageSize (d : DatasetInfo) : Nat := d.storageSize

/-- Environment of one `CppBackend::compile` invocation: the codec, the
result of `Backend::assembleUDF` (the empty string on assembly failure), the
result of `fork` (`forkOk = false` models a negative pid, in which case both
the child and the parent branch are skipped), and whether `stat` finds the
compiler's output file after `wait4`, together with its bytes. -/
structure CompileEnv where
  codec : Codec
  assembled : String
  forkOk : Bool
  soExists : Bool
  soBytes : List Nat

/-- Result of `CppBackend::compile`: the returned string (empty on failure)
and the files passed to `unlink`, in call order. -/
structure CompileResult where
  blob : List Nat
  unlinked : List String
deriving DecidableEq

/-- `CppBackend::compile` (cpp_backend.cpp lines 47-99), seen from the
invoking process: assemble the UDF with the template (failure returns the
empty string); fork the compiler; in the parent, wait, read the output file
`udf_file ++ ".so"` into `bytecode` if `stat` succeeds (and unlink it),
unlink the assembled source, and return `compressBuffer bytecode` — note that
when the output file is missing, `bytecode` stays empty and the code still
returns `compressBuffer` of the empty buffer.  When `fork` fails, both
branches are skipped and the function prints a diagnostic and returns the
empty string. -/
def compile (env : CompileEnv) (udf_file : String) (template_file : String) :
    CompileResult :=
  if env.assembled.length = 0 then ⟨[], []⟩
  else if env.forkOk then
    if env.soExists then
      ⟨compressBuffer env.codec env.soBytes, [udf_file ++ ".so", env.assembled]⟩
    else
      ⟨compressBuffer env.codec [], [env.assembled]⟩
  else ⟨[], []⟩

/-- Environment of one `CppBackend::run` invocation: the codec, the file name
returned by `Backend::writeToDisk` (empty on failure), the result of
`AnonymousMemoryMap::create`, the result of `fork` (`forkOk = false` models a
negative pid: both the child branch and the parent branch are skipped), the
bytes held by the shared memory region once `waitpid` returns, and the
child's exit status (which `run` never inspects: it passes `NULL` to
`waitpid`). -/
structure RunEnv where
  codec : Codec
  soPath : String
  mapOk : Bool
  forkOk : Bool
  childRegion : List Nat
  childExit : Nat

/-- Result of `CppBackend::run` in the parent: the returned boolean, the
caller's output buffer after the call, and the files passed to `unlink`. -/
structure RunResult where
  success : Bool
  buf : List Nat
  unlinked : List String
deriving DecidableEq

/-- `CppBackend::run` (cpp_backend.cpp lines 144-249), parent side: decompress
the blob (empty result fails), write it to disk (empty file name fails),
chmod, compute `room_size = getGridSize * getStorageSize`, create the shared
region (failure unlinks the on-disk object and fails), fork; with a positive
pid the parent waits (discarding the status) and copies `room_size` bytes
from the shared region over the start of the caller's output buffer; with a
negative pid both branches are skipped.  Control then falls through to
`unlink(so_file)` and `return true`.  `filterpath` and `input_datasets` are
consumed only inside the child (see `childRun`); `output_cast_datatype` is
never read. -/
def run (env : RunEnv) (filterpath : String) (input_datasets : List DatasetInfo)
    (output_dataset : DatasetInfo) (output_cast_datatype : String)
    (sharedlib_data : List Nat) : Except UB RunResult :=
  match decompressBuffer env.codec sharedlib_data with
  | .error e => .error e
  | .ok decompressed_shlib =>
    if decompressed_shlib.length = 0 then .ok ⟨false, output_dataset.data, []⟩
    else if env.soPath.length = 0 then .ok ⟨false, output_dataset.data, []⟩
    else
      let room_size := output_dataset.getGridSize * output_dataset.getStorageSize
      if env.mapOk = false then .ok ⟨false, output_dataset.data, [env.soPath]⟩
      else if env.forkOk then
        .ok ⟨true,
          resizeTo room_size env.childRegion ++ output_dataset.data.drop room_size,
          [env.soPath]⟩
      else
        .ok ⟨true, output_dataset.data, [env.soPath]⟩

/-- How the child process of `CppBackend::run` terminates: `lowLevel code`
models `_exit(code)`, which bypasses the handlers registered with `atexit`;
`returnFromRun r` models executing `return r` inside the child, i.e. the child
leaves `run` through the ordinary return path and keeps running the caller's
code. -/
inductive ExitPath where
  | lowLevel (code : Nat)
  | returnFromRun (r : Bool)
deriving DecidableEq

/-- Environment of the child branch of `CppBackend::run`: the result of
`SharedLibraryManager::open`, whether each of the five `loadsym` lookups
(`dynamic_dataset`, `hdf5_udf_data`, `hdf5_udf_names`, `hdf5_udf_types`,
`hdf5_udf_dims`) returns non-null, whether the build enables the sandbox
(`ENABLE_SANDBOX`), and the result of `Sandbox::init`. -/
structure ChildEnv where
  openOk : Bool
  hasUdfSym : Bool
  hasDataSym : Bool
  hasNamesSym : Bool
  hasTypesSym : Bool
  hasDimsSym : Bool
  sandboxEnabled : Bool
  sandboxInitOk : Bool

/-- Conjunction of the five `loadsym` results, matching the test
`if (! udf || ! hdf5_udf_data || ! hdf5_udf_names || ! hdf5_udf_types || ! hdf5_udf_dims)`. -/
def ChildEnv.allSyms (env : ChildEnv) : Bool :=
  env.hasUdfSym && env.hasDataSym && env.hasNamesSym && env.hasTypesSym && env.hasDimsSym

/-- Observable outcome of the child branch: the path by which the child
leaves `run`, whether `udf()` was invoked, and the dataset names pushed into
the runtime table `hdf5_udf_names` (in push order). -/
structure ChildResult where
  exitPath : ExitPath
  udfRan : Bool
  tableNames : List String
deriving DecidableEq

/-- Child branch of `CppBackend::run` (cpp_backend.cpp lines 191-239): on
`shlib.open` failure `return false`; if any of the five symbols is null
`return false`; otherwise build `dataset_info` as the output descriptor
followed by the input descriptors, populate the runtime tables in that order,
compute `ready` (`sandbox.init(filterpath)` when `ENABLE_SANDBOX` is set,
otherwise `true`), call `udf()` when ready, and leave via
`_exit(ready ? 0 : 1)`. -/
def childRun (env : ChildEnv) (input_datasets : List DatasetInfo)
    (output_dataset : DatasetInfo) : ChildResult :=
  if env.openOk = false then ⟨.returnFromRun false, false, []⟩
  else if env.allSyms = false then ⟨.returnFromRun false, false, []⟩
  else
    let dataset_info := output_dataset :: input_datasets
    let ready := if env.sandboxEnabled then env.sandboxInitOk else true
    ⟨.lowLevel (if ready then 0 else 1), ready, dataset_info.map DatasetInfo.name⟩


/-- `std::string::find(needle)` on a character list: index of the first
occurrence of `needle`, `none` standing for `std::string::npos`. -/
def strFind (hay needle : List Char) : Option Nat :=
  if needle.isPrefixOf hay then some 0
  else
    match hay with
    | [] => none
    | _ :: t => (strFind t needle).map (fun i => i + 1)

/-- The `std::string::npos` constant, as a `size_t` value. -/
def NPOS : Nat := SIZE_MOD - 1

/-- The literal token sequence the scanner looks for. -/
def getDataTok : List Char := "lib.getData".toList

/-- One iteration of the scanning loop of `CppBackend::udfDatasetNames`
(cpp_backend.cpp lines 305-315): `n = line.find("lib.getData")`; when found,
`start = line.substr(n).find_first_of('"')`, `end =
line.substr(n+start+1).find_first_of('"')` and the pushed name is
`line.substr(n).substr(start+1, end)` — all index arithmetic in `size_t`,
with absent quotes producing `npos` and wrapping.  Note only the first
occurrence of the token in the line is considered. -/
def scanLine (line : List Char) : Option (List Char) :=
  match strFind line getDataTok with
  | none => none
  | some n =>
    let rest := line.drop n
    let start := (strFind rest ['"']).getD NPOS
    let rest2 := line.drop ((n + start + 1) % SIZE_MOD)
    let e := (strFind rest2 ['"']).getD NPOS
    some ((rest.drop ((start + 1) % SIZE_MOD)).take e)

/-- Accumulator pass splitting a character stream at newline characters. -/
def getlinesAux : List Char → List Char → List (List Char)
  | [], acc => [acc.reverse]
  | ch :: t, acc =>
    if ch = '\n' then acc.reverse :: getlinesAux t []
    else getlinesAux t (ch :: acc)

/-- The `while (std::getline(iss, line))` loop of `udfDatasetNames`: split the
preprocessor output at newlines; a trailing newline does not produce an extra
empty line, and an empty stream produces no lines. -/
def getlines (s : List Char) : List (List Char) :=
  if s.isEmpty then []
  else if s.getLast? = some '\n' then (getlinesAux s []).dropLast
  else getlinesAux s []

/-- Environment of one `CppBackend::udfDatasetNames` invocation: whether
`pipe` succeeded, whether `fork` returned a positive pid in the parent, and
the bytes the preprocessor child wrote to the pipe. -/
structure ScanEnv where
  pipeOk : Bool
  forkOk : Bool
  preOutput : List Char

/-- `CppBackend::udfDatasetNames` (cpp_backend.cpp lines 252-321): a `pipe`
failure returns the empty list; a `fork` failure skips the parent branch and
returns the empty (never filled) output vector; otherwise the parent reads
the whole preprocessor output and runs the scanning loop line by line,
pushing at most one name per line. -/
def udfDatasetNames (env : ScanEnv) : List (List Char) :=
  if env.pipeOk = false then []
  else if env.forkOk then (getlines env.preOutput).filterMap scanLine
  else []

/-- Reading of the claim: the first double-quoted string literal that follows
a position in the line — the characters strictly between the next two
double-quote characters (`none` when the line holds no complete literal). -/
def firstQuoted (s : List Char) : Option (List Char) :=
  match strFind s ['"'] with
  | none => none
  | some i =>
    match strFind (s.drop (i + 1)) ['"'] with
    | none => none
    | some j => some ((s.drop (i + 1)).take j)

/-- Reading of the claim: for every occurrence of the token sequence
`lib.getData` in the line, the first double-quoted string literal that
follows it, in occurrence order. -/
def occScan : List Char → List (List Char)
  | [] => []
  | ch :: t =>
    (if getDataTok.isPrefixOf (ch :: t) then
      (firstQuoted ((ch :: t).drop getDataTok.length)).toList
    else []) ++ occScan t

/-- Reading of the claim as a whole-scanner function: one name per occurrence
of the token (not per line), duplicates preserved in source order. -/
def udfDatasetNamesClaim (env : ScanEnv) : List (List Char) :=
  if env.pipeOk = false then []
  else if env.forkOk then ((getlines env.preOutput).map occScan).flatten
  else []

end CppBackend

namespace SandboxLib

/-- List of files allowed to be accessed by the UDF (sandbox_library.cpp
lines 33-35), before wildcard expansion. -/
def files_allowed : List String := ["/etc/resolv.conf"]

/-- Outcome of the syscall-intercept callback: `passthrough` models a
non-zero return (the intercepting library executes the original syscall);
`denied r` models storing `r` in `*ret` and returning 0 (the user takes over
the call, which therefore never enters the kernel). -/
inductive InterceptOutcome where
  | passthrough
  | denied (ret : Int)
deriving DecidableEq

/-- The `EPERM` errno constant. -/
def EPERM : Int := 1

/-- The `test_file_ok` lambda inside `syscall_intercept` (sandbox_library.cpp
lines 62-70): walk `files_allowed` and return 1 (pass through) on the first
entry that compares equal to the path; otherwise set `*ret = -EPERM` and
return 0. -/
def test_file_ok (allowed : List String) (path : String) : InterceptOutcome :=
  match allowed with
  | [] => .denied (-EPERM)
  | p :: rest => if p = path then .passthrough else test_file_ok rest path

/-- Syscall numbers (x86-64) used by the `switch` in `syscall_intercept`. -/
def SYS_stat : Nat := 4

/-- Syscall number of `fstat` on x86-64. -/
def SYS_fstat : Nat := 5

/-- Syscall number of `lstat` on x86-64. -/
def SYS_lstat : Nat := 6

/-- Syscall number of `open` on x86-64. -/
def SYS_open : Nat := 2

/-- Syscall number of `openat` on x86-64. -/
def SYS_openat : Nat := 257

/-- `syscall_intercept` (sandbox_library.cpp lines 52-88): for `stat`,
`lstat` and `open` check the path in the first argument; for `openat` check
the path in the second argument; `fstat` and every other syscall fall to the
default branch and return 1 (pass through unchanged).  `path0` and `path1`
are the strings the pointer arguments `arg0` and `arg1` point at. -/
def syscall_intercept (allowed : List String) (syscall_nr : Nat)
    (path0 path1 : String) : InterceptOutcome :=
  if syscall_nr = SYS_stat ∨ syscall_nr = SYS_lstat ∨ syscall_nr = SYS_open then
    test_file_ok allowed path0
  else if syscall_nr = SYS_openat then
    test_file_ok allowed path1
  else
    .passthrough

/-- `syscall_intercept_init` (sandbox_library.cpp lines 90-114): copy the
current allowlist, clear it, and rebuild it entry by entry — an entry without
a `*` is pushed back verbatim; an entry with a `*` is passed to `glob`
(with `GLOB_NOSORT`), whose matches are appended in the unsorted order the
library reports (`globResolve path = none` models a non-zero `glob` return,
in which case the entry is skipped). -/
def syscall_intercept_init (globResolve : String → Option (List String))
    (files : List String) : List String :=
  files.foldl
    (fun acc path =>
      if (path.contains '*') = false then acc ++ [path]
      else
        match globResolve path with
        | none => acc
        | some ms => acc ++ ms)
    []

end SandboxLib

/-! Helper lemmas about the byte-level primitives. -/

theorem u64leEncode_length (n : Nat) : (u64leEncode n).length = 8 := by
  simp [u64leEncode]

theorem u64le_roundtrip (n : Nat) : u64leDecode (u64leEncode n) = n % SIZE_MOD := by
  have h : List.range 8 = [0, 1, 2, 3, 4, 5, 6, 7] := by decide
  have hs : SIZE_MOD = 18446744073709551616 := by norm_num [SIZE_MOD]
  simp [u64leEncode, u64leDecode, h, hs]
  omega

theorem resizeTo_length (n : Nat) (xs : List Nat) : (resizeTo n xs).length = n := by
  simp [resizeTo]
  omega

theorem resizeTo_of_length_eq (n : Nat) (xs : List Nat) (h : xs.length = n) :
    resizeTo n xs = xs := by
  subst h
  simp [resizeTo]

/-- C1: for every non-empty byte string `x` whose compression succeeds,
`compressBuffer` appends an 8-byte little-endian trailer equal to the length
of `x` to the compressed payload, and `decompressBuffer` reads that trailer,
allocates exactly that many bytes, and recovers `x`
(`decompressBuffer (compressBuffer x) = x`). -/
theorem claim_C1_roundtrip (C : Codec) (x c : List Nat)
    (hx : x ≠ []) (hxlen : x.length < SIZE_MOD)
    (hcomp : C.comp x = some c) (hclen : c.length + 8 ≤ SIZE_MOD)
    (huncomp : C.uncomp c x.length = some x) :
    CppBackend.compressBuffer C x = c ++ u64leEncode x.length ∧
    CppBackend.decompressBuffer C (CppBackend.compressBuffer C x) = .ok x := by
  have hs : SIZE_MOD = 18446744073709551616 := by norm_num [SIZE_MOD]
  have hcb : CppBackend.compressBuffer C x = c ++ u64leEncode x.length := by
    simp [CppBackend.compressBuffer, hcomp, Nat.mod_eq_of_lt hxlen]
  refine ⟨hcb, ?_⟩
  rw [hcb]
  have henc : (u64leEncode x.length).length = 8 := u64leEncode_length x.length
  have hblen : (c ++ u64leEncode x.length).length = c.length + 8 := by
    simp [henc]
  have htpos : ((c ++ u64leEncode x.length).length + (SIZE_MOD - 8)) % SIZE_MOD
      = c.length := by
    rw [hblen, hs]
    omega
  have hread : readBytes (c ++ u64leEncode x.length) c.length 8
      = some (u64leEncode x.length) := by
    rw [readBytes, if_pos (by rw [hblen])]
    rw [List.drop_left, List.take_of_length_le (le_of_eq henc)]
  have htake : (c ++ u64leEncode x.length).take c.length = c := List.take_left c _
  rw [CppBackend.decompressBuffer, htpos, hread, htake]
  simp [u64le_roundtrip, Nat.mod_eq_of_lt hxlen, huncomp, resizeTo_of_length_eq]

/-- C1 witness: the round trip evaluated at the concrete byte string
`[1, 2, 3]` with the concrete codec stand-in. -/
theorem claim_C1_witness :
    CppBackend.compressBuffer mzCodec [1, 2, 3] = [1, 2, 3] ++ u64leEncode 3 ∧
    CppBackend.decompressBuffer mzCodec (CppBackend.compressBuffer mzCodec [1, 2, 3])
      = .ok [1, 2, 3] :=
  claim_C1_roundtrip mzCodec [1, 2, 3] [1, 2, 3] (by decide)
    (by norm_num [SIZE_MOD]) rfl (by norm_num [SIZE_MOD]) rfl

/-- C10: `decompressBuffer` reads the 8-byte trailer at offset `csize - 8` in
`size_t` arithmetic without any length check, so for every blob shorter than
8 bytes the trailer read is out of bounds and the embedding reports the
out-of-bounds read instead of any defined result. -/
theorem claim_C10_trailer_oob (C : Codec) (blob : List Nat)
    (h : blob.length < 8) :
    readBytes blob ((blob.length + (SIZE_MOD - 8)) % SIZE_MOD) 8 = none ∧
    CppBackend.decompressBuffer C blob = .error .oobRead := by
  have hs : SIZE_MOD = 18446744073709551616 := by norm_num [SIZE_MOD]
  have hm : (blob.length + (SIZE_MOD - 8)) % SIZE_MOD = blob.length + (SIZE_MOD - 8) := by
    apply Nat.mod_eq_of_lt
    rw [hs]
    omega
  have hr : readBytes blob ((blob.length + (SIZE_MOD - 8)) % SIZE_MOD) 8 = none := by
    rw [readBytes, hm, if_neg]
    rw [hs]
    omega
  exact ⟨hr, by rw [CppBackend.decompressBuffer, hr]⟩

/-- C10 witness: the out-of-bounds trailer read on the concrete 3-byte blob
`[1, 2, 3]`. -/
theorem claim_C10_witness :
    readBytes [1, 2, 3] (([1, 2, 3].length + (SIZE_MOD - 8)) % SIZE_MOD) 8 = none ∧
    CppBackend.decompressBuffer mzCodec [1, 2, 3] = .error .oobRead :=
  claim_C10_trailer_oob mzCodec [1, 2, 3] (by decide)

/-- C2 counterexample: an invocation in which assembly succeeded (a non-empty
assembled file name), `fork` succeeded, and `stat` does not find the shared
object after the wait.  The code does unlink the assembled source, but it
returns `compressBuffer` of the empty byte string — a blob of 8 bytes (the
zero trailer), not the empty blob the claim requires. -/
theorem claim_C2_counterexample :
    (CppBackend.compile ⟨mzCodec, "udf.cpp.tmp.cpp", true, false, []⟩ "udf.cpp" "t.cpp").blob
      = [0, 0, 0, 0, 0, 0, 0, 0] ∧
    (CppBackend.compile ⟨mzCodec, "udf.cpp.tmp.cpp", true, false, []⟩ "udf.cpp" "t.cpp").blob
      ≠ [] ∧
    (CppBackend.compile ⟨mzCodec, "udf.cpp.tmp.cpp", true, false, []⟩ "udf.cpp" "t.cpp").unlinked
      = ["udf.cpp.tmp.cpp"] := by
  refine ⟨rfl, by decide, rfl⟩

/-- C2 amended: when assembly succeeds, the compiler child is waited for, and
no shared object exists at the output path, `compile` unlinks the assembled
source only and returns `compressBuffer` applied to the empty byte string;
whenever the codec compresses the empty input successfully (as the
deflate-class primitive does), that blob is non-empty — it carries an 8-byte
zero trailer — so the failure is not signalled by an empty blob. -/
theorem claim_C2_missing_output (env : CppBackend.CompileEnv)
    (udf_file template_file : String)
    (ha : env.assembled.length ≠ 0) (hf : env.forkOk = true)
    (hso : env.soExists = false) :
    CppBackend.compile env udf_file template_file
      = ⟨CppBackend.compressBuffer env.codec [], [env.assembled]⟩ ∧
    (∀ c, env.codec.comp [] = some c →
      (CppBackend.compile env udf_file template_file).blob ≠ []) := by
  have h1 : CppBackend.compile env udf_file template_file
      = ⟨CppBackend.compressBuffer env.codec [], [env.assembled]⟩ := by
    simp [CppBackend.compile, ha, hf, hso]
  refine ⟨h1, ?_⟩
  intro c hc
  rw [h1]
  intro hnil
  have hlen := congrArg List.length hnil
  simp [CppBackend.compressBuffer, hc, u64leEncode_length] at hlen

/-- C2 witness: the amended behaviour evaluated at a concrete environment
with a missing compiler output. -/
theorem claim_C2_witness :
    CppBackend.compile ⟨mzCodec, "x.cpp.t.cpp", true, false, [7]⟩ "x.cpp" "tpl.cpp"
      = ⟨CppBackend.compressBuffer mzCodec [], ["x.cpp.t.cpp"]⟩ ∧
    (∀ c, mzCodec.comp [] = some c →
      (CppBackend.compile ⟨mzCodec, "x.cpp.t.cpp", true, false, [7]⟩
          "x.cpp" "tpl.cpp").blob ≠ []) :=
  claim_C2_missing_output ⟨mzCodec, "x.cpp.t.cpp", true, false, [7]⟩ "x.cpp" "tpl.cpp"
    (by decide) rfl rfl

/-- C3: when decompression yields a non-empty library, the on-disk write, the
shared-region creation and the fork all succeed, `run` returns true — its
result does not depend on the child's exit status, which is never inspected —
and the parent copies exactly `room = getGridSize * getStorageSize` bytes
from the shared region over the start of the caller's output buffer, then
unlinks the on-disk shared object. -/
theorem claim_C3_parent_success (env : CppBackend.RunEnv) (filterpath : String)
    (input_datasets : List CppBackend.DatasetInfo)
    (output_dataset : CppBackend.DatasetInfo)
    (output_cast_datatype : String) (sharedlib_data : List Nat) (d : List Nat)
    (hd : CppBackend.decompressBuffer env.codec sharedlib_data = .ok d)
    (hne : d ≠ [])
    (hso : env.soPath.length ≠ 0) (hmap : env.mapOk = true)
    (hfork : env.forkOk = true) :
    CppBackend.run env filterpath input_datasets output_dataset
        output_cast_datatype sharedlib_data
      = .ok ⟨true,
          resizeTo (output_dataset.getGridSize * output_dataset.getStorageSize)
              env.childRegion
            ++ output_dataset.data.drop
              (output_dataset.getGridSize * output_dataset.getStorageSize),
          [env.soPath]⟩ ∧
    (resizeTo (output_dataset.getGridSize * output_dataset.getStorageSize)
        env.childRegion).length
      = output_dataset.getGridSize * output_dataset.getStorageSize ∧
    (∀ e : Nat,
      CppBackend.run { env with childExit := e } filterpath input_datasets
          output_dataset output_cast_datatype sharedlib_data
        = CppBackend.run env filterpath input_datasets output_dataset
            output_cast_datatype sharedlib_data) := by
  refine ⟨?_, resizeTo_length _ _, fun e => rfl⟩
  simp [CppBackend.run, hd, hne, hso, hmap, hfork]

/-- C3 witness: a successful run evaluated at a concrete environment; the
child leaves `[1, 2]` in the two-byte shared region and the parent copies it
over the caller's buffer `[9, 9]`. -/
theorem claim_C3_witness :
    CppBackend.run ⟨mzCodec, "/tmp/x.so", true, true, [1, 2], 0⟩ "file.h5" []
        ⟨"o", [2], 1, [9, 9]⟩ "int32" [7, 1, 0, 0, 0, 0, 0, 0, 0]
      = .ok ⟨true, [1, 2], ["/tmp/x.so"]⟩ :=
  (claim_C3_parent_success ⟨mzCodec, "/tmp/x.so", true, true, [1, 2], 0⟩ "file.h5" []
    ⟨"o", [2], 1, [9, 9]⟩ "int32" [7, 1, 0, 0, 0, 0, 0, 0, 0] [7]
    rfl (by decide) (by decide) rfl rfl).1

/-- C4 counterexample: a run in which decompression, the on-disk write and
the shared-region creation succeed but `fork` fails.  The claim requires
`run` to return false, but the code skips both the child and the parent
branch, falls through to the final `unlink` and returns true (with the
caller's buffer unmodified). -/
theorem claim_C4_counterexample :
    CppBackend.run ⟨mzCodec, "/tmp/y.so", true, false, [], 0⟩ "f.h5" []
        ⟨"o", [1], 1, [9]⟩ "int32" [5, 1, 0, 0, 0, 0, 0, 0, 0]
      = .ok ⟨true, [9], ["/tmp/y.so"]⟩ ∧
    (CppBackend.run ⟨mzCodec, "/tmp/y.so", true, false, [], 0⟩ "f.h5" []
        ⟨"o", [1], 1, [9]⟩ "int32" [5, 1, 0, 0, 0, 0, 0, 0, 0]).toOption.map
      CppBackend.RunResult.success ≠ some false := by
  refine ⟨rfl, by decide⟩

/-- C4 amended: the parent-side failures before the child is waited for
behave as follows — a decompression failure (empty decompressed library), a
failure to write the shared object to disk, or a shared-region allocation
failure make `run` return false with the caller's output buffer unmodified;
but a `fork` failure is not detected: both branches are skipped and `run`
returns true, again with the buffer unmodified. -/
theorem claim_C4_parent_failures (env : CppBackend.RunEnv) (fp : String)
    (ins : List CppBackend.DatasetInfo) (out : CppBackend.DatasetInfo)
    (cast : String) (blob : List Nat) :
    (CppBackend.decompressBuffer env.codec blob = .ok [] →
      CppBackend.run env fp ins out cast blob = .ok ⟨false, out.data, []⟩) ∧
    (∀ d, CppBackend.decompressBuffer env.codec blob = .ok d → d ≠ [] →
      env.soPath.length = 0 →
      CppBackend.run env fp ins out cast blob = .ok ⟨false, out.data, []⟩) ∧
    (∀ d, CppBackend.decompressBuffer env.codec blob = .ok d → d ≠ [] →
      env.soPath.length ≠ 0 → env.mapOk = false →
      CppBackend.run env fp ins out cast blob
        = .ok ⟨false, out.data, [env.soPath]⟩) ∧
    (∀ d, CppBackend.decompressBuffer env.codec blob = .ok d → d ≠ [] →
      env.soPath.length ≠ 0 → env.mapOk = true → env.forkOk = false →
      CppBackend.run env fp ins out cast blob
        = .ok ⟨true, out.data, [env.soPath]⟩) := by
  refine ⟨fun h => ?_, fun d hd hne hso => ?_, fun d hd hne hso hm => ?_,
    fun d hd hne hso hm hf => ?_⟩
  · simp [CppBackend.run, h]
  · simp [CppBackend.run, hd, hne, hso]
  · simp [CppBackend.run, hd, hne, hso, hm]
  · simp [CppBackend.run, hd, hne, hso, hm, hf]

/-- C4 witness: the shared-region allocation failure (`MapError`) case of the
amended claim evaluated at a concrete environment. -/
theorem claim_C4_witness :
    CppBackend.run ⟨mzCodec, "/tmp/z.so", false, true, [], 0⟩ "f.h5" []
        ⟨"o", [1], 1, [9]⟩ "int32" [5, 1, 0, 0, 0, 0, 0, 0, 0]
      = .ok ⟨false, [9], ["/tmp/z.so"]⟩ :=
  (claim_C4_parent_failures ⟨mzCodec, "/tmp/z.so", false, true, [], 0⟩ "f.h5" []
    ⟨"o", [1], 1, [9]⟩ "int32" [5, 1, 0, 0, 0, 0, 0, 0, 0]).2.2.1 [5]
    rfl (by decide) (by decide) rfl

/-- C5 counterexample: a child in which `SharedLibraryManager::open` fails.
The claim requires a low-level exit with code 1, but the child executes
`return false` and leaves `run` through the ordinary return path — the
at-exit handlers of the hosting process remain armed. -/
theorem claim_C5_counterexample :
    CppBackend.childRun ⟨false, true, true, true, true, true, true, true⟩ []
        ⟨"o", [1], 1, []⟩
      = ⟨.returnFromRun false, false, []⟩ ∧
    (CppBackend.childRun ⟨false, true, true, true, true, true, true, true⟩ []
        ⟨"o", [1], 1, []⟩).exitPath ≠ .lowLevel 1 := by
  refine ⟨rfl, by decide⟩

/-- C5 amended: when the shared object opens and all five symbols resolve,
the child terminates via the low-level `_exit` (bypassing at-exit handlers)
with code 0 when ready (sandbox disabled, or sandbox init succeeded — the UDF
then runs) and code 1 when sandbox init fails (the UDF does not run); but on
an open failure or a missing symbol or runtime table the child instead
executes `return false`, leaving `run` through the ordinary return path. -/
theorem claim_C5_child_exit (env : CppBackend.ChildEnv)
    (ins : List CppBackend.DatasetInfo) (out : CppBackend.DatasetInfo) :
    ((env.openOk && env.allSyms) = true →
      CppBackend.childRun env ins out
        = ⟨.lowLevel
              (if (if env.sandboxEnabled then env.sandboxInitOk else true) then 0 else 1),
            (if env.sandboxEnabled then env.sandboxInitOk else true),
            (out :: ins).map CppBackend.DatasetInfo.name⟩) ∧
    ((env.openOk && env.allSyms) = false →
      CppBackend.childRun env ins out = ⟨.returnFromRun false, false, []⟩) := by
  cases ho : env.openOk <;> cases ha : env.allSyms <;>
    simp_all [CppBackend.childRun]

/-- C5 witness: both branches of the amended claim evaluated at concrete
child environments — a sandbox-init failure exiting with `_exit(1)`, and a
missing entry symbol leaving through `return false`. -/
theorem claim_C5_witness :
    CppBackend.childRun ⟨true, true, true, true, true, true, true, false⟩ []
        ⟨"o", [1], 1, []⟩
      = ⟨.lowLevel 1, false, ["o"]⟩ ∧
    CppBackend.childRun ⟨true, false, true, true, true, true, false, true⟩ []
        ⟨"o", [1], 1, []⟩
      = ⟨.returnFromRun false, false, []⟩ :=
  ⟨(claim_C5_child_exit ⟨true, true, true, true, true, true, true, false⟩ []
      ⟨"o", [1], 1, []⟩).1 (by decide),
   (claim_C5_child_exit ⟨true, false, true, true, true, true, false, true⟩ []
      ⟨"o", [1], 1, []⟩).2 (by decide)⟩

/-- C9: for every fixed environment, sandbox policy path, input list, output
descriptor and blob, the result and effects of `run` are identical for all
values of the `output_cast_datatype` parameter — the parameter is accepted
but never read. -/
theorem claim_C9_cast_unused (env : CppBackend.RunEnv) (fp : String)
    (ins : List CppBackend.DatasetInfo) (out : CppBackend.DatasetInfo)
    (cast1 cast2 : String) (blob : List Nat) :
    CppBackend.run env fp ins out cast1 blob
      = CppBackend.run env fp ins out cast2 blob := rfl


/-! Helper lemmas for the sandbox library. -/

theorem test_file_ok_of_mem (allowed : List String) (path : String)
    (h : path ∈ allowed) :
    SandboxLib.test_file_ok allowed path = .passthrough := by
  induction allowed with
  | nil => cases h
  | cons p rest ih =>
    rw [SandboxLib.test_file_ok]
    rcases List.mem_cons.mp h with h1 | h2
    · rw [if_pos h1.symm]
    · by_cases hp : p = path
      · rw [if_pos hp]
      · rw [if_neg hp]
        exact ih h2

theorem test_file_ok_of_not_mem (allowed : List String) (path : String)
    (h : path ∉ allowed) :
    SandboxLib.test_file_ok allowed path = .denied (-SandboxLib.EPERM) := by
  induction allowed with
  | nil => rfl
  | cons p rest ih =>
    have hp : ¬ p = path := fun hp => h (by rw [hp]; exact List.mem_cons_self path rest)
    rw [SandboxLib.test_file_ok, if_neg hp]
    exact ih (fun hm => h (List.mem_cons_of_mem p hm))

theorem foldl_expand_eq_flatMap (g : String → Option (List String))
    (files : List String) (acc : List String) :
    files.foldl
        (fun acc path =>
          if (path.contains '*') = false then acc ++ [path]
          else
            match g path with
            | none => acc
            | some ms => acc ++ ms)
        acc
      = acc ++ files.flatMap
          (fun path =>
            if (path.contains '*') = false then [path] else (g path).getD []) := by
  induction files generalizing acc with
  | nil => simp
  | cons p rest ih =>
    rw [List.foldl_cons, List.flatMap_cons, ih]
    by_cases hp : (p.contains '*') = false
    · simp [hp]
    · rw [if_neg hp, if_neg hp]
      cases hg : g p with
      | none => simp
      | some ms => simp

/-- C6: for every intercepted syscall — if it is `stat`, `lstat` or `open`
(path in the first argument) or `openat` (path in the second argument) and
the path equals some entry of the expanded allowlist, the original syscall is
executed (pass through); if the path matches no entry, the call is taken over
and returns `-EPERM` without entering the kernel; `fstat` and every other
syscall pass through unchanged. -/
theorem claim_C6_intercept (allowed : List String) (syscall_nr : Nat)
    (path0 path1 : String) :
    ((syscall_nr = SandboxLib.SYS_stat ∨ syscall_nr = SandboxLib.SYS_lstat ∨
        syscall_nr = SandboxLib.SYS_open) →
      (path0 ∈ allowed →
        SandboxLib.syscall_intercept allowed syscall_nr path0 path1 = .passthrough) ∧
      (path0 ∉ allowed →
        SandboxLib.syscall_intercept allowed syscall_nr path0 path1
          = .denied (-SandboxLib.EPERM))) ∧
    (syscall_nr = SandboxLib.SYS_openat →
      (path1 ∈ allowed →
        SandboxLib.syscall_intercept allowed syscall_nr path0 path1 = .passthrough) ∧
      (path1 ∉ allowed →
        SandboxLib.syscall_intercept allowed syscall_nr path0 path1
          = .denied (-SandboxLib.EPERM))) ∧
    (syscall_nr ≠ SandboxLib.SYS_stat → syscall_nr ≠ SandboxLib.SYS_lstat →
      syscall_nr ≠ SandboxLib.SYS_open → syscall_nr ≠ SandboxLib.SYS_openat →
      SandboxLib.syscall_intercept allowed syscall_nr path0 path1 = .passthrough) := by
  refine ⟨fun hpath => ⟨fun hm => ?_, fun hm => ?_⟩,
    fun hat => ⟨fun hm => ?_, fun hm => ?_⟩, fun h1 h2 h3 h4 => ?_⟩
  · rw [SandboxLib.syscall_intercept, if_pos hpath, test_file_ok_of_mem allowed path0 hm]
  · rw [SandboxLib.syscall_intercept, if_pos hpath,
      test_file_ok_of_not_mem allowed path0 hm]
  · have hne : ¬(syscall_nr = SandboxLib.SYS_stat ∨ syscall_nr = SandboxLib.SYS_lstat ∨
        syscall_nr = SandboxLib.SYS_open) := by
      subst hat
      decide
    rw [SandboxLib.syscall_intercept, if_neg hne, if_pos hat,
      test_file_ok_of_mem allowed path1 hm]
  · have hne : ¬(syscall_nr = SandboxLib.SYS_stat ∨ syscall_nr = SandboxLib.SYS_lstat ∨
        syscall_nr = SandboxLib.SYS_open) := by
      subst hat
      decide
    rw [SandboxLib.syscall_intercept, if_neg hne, if_pos hat,
      test_file_ok_of_not_mem allowed path1 hm]
  · rw [SandboxLib.syscall_intercept, if_neg (by tauto), if_neg h4]

/-- C6 witness: with the default allowlist, `open("/etc/resolv.conf")` passes
through, `open("/etc/passwd")` is denied with `-EPERM`, and `fstat` passes
through unchanged. -/
theorem claim_C6_witness :
    SandboxLib.syscall_intercept ["/etc/resolv.conf"] SandboxLib.SYS_open
        "/etc/resolv.conf" "" = .passthrough ∧
    SandboxLib.syscall_intercept ["/etc/resolv.conf"] SandboxLib.SYS_open
        "/etc/passwd" "" = .denied (-SandboxLib.EPERM) ∧
    SandboxLib.syscall_intercept ["/etc/resolv.conf"] SandboxLib.SYS_fstat
        "/etc/passwd" "" = .passthrough :=
  ⟨((claim_C6_intercept ["/etc/resolv.conf"] SandboxLib.SYS_open
      "/etc/resolv.conf" "").1 (by decide)).1 (by decide),
   ((claim_C6_intercept ["/etc/resolv.conf"] SandboxLib.SYS_open
      "/etc/passwd" "").1 (by decide)).2 (by decide),
   (claim_C6_intercept ["/etc/resolv.conf"] SandboxLib.SYS_fstat
      "/etc/passwd" "").2.2 (by decide) (by decide) (by decide) (by decide)⟩

/-- C7: the allowlist rebuild performed once at sandbox library load maps
every entry containing a `*` to the (unsorted) filesystem-glob expansion of
that pattern (an entry whose glob call fails contributes nothing), keeps
every literal entry verbatim, and the default pre-expansion allowlist
consists exactly of the host's DNS resolver configuration path
`/etc/resolv.conf`. -/
theorem claim_C7_expansion (globResolve : String → Option (List String))
    (files : List String) :
    SandboxLib.syscall_intercept_init globResolve files
      = files.flatMap
          (fun path =>
            if (path.contains '*') = false then [path]
            else (globResolve path).getD []) ∧
    SandboxLib.files_allowed = ["/etc/resolv.conf"] := by
  refine ⟨?_, rfl⟩
  rw [SandboxLib.syscall_intercept_init, foldl_expand_eq_flatMap globResolve files []]
  rfl

/-! Helper lemmas for the dataset-reference scanner. -/

theorem strFind_some (hay needle : List Char) (n : Nat)
    (h1 : needle.isPrefixOf (hay.drop n) = true)
    (h2 : ∀ i, i < n → needle.isPrefixOf (hay.drop i) = false)
    (h3 : n ≤ hay.length) :
    CppBackend.strFind hay needle = some n := by
  induction n generalizing hay with
  | zero =>
    rw [CppBackend.strFind.eq_def, if_pos]
    simpa using h1
  | succ m ih =>
    have h0 : needle.isPrefixOf hay = false := by simpa using h2 0 (Nat.succ_pos m)
    cases hay with
    | nil => simp at h3
    | cons ch t =>
      rw [CppBackend.strFind.eq_def, if_neg (by simp [h0])]
      have ht : CppBackend.strFind t needle = some m := by
        apply ih
        · simpa using h1
        · intro i hi
          simpa using h2 (i + 1) (Nat.succ_lt_succ hi)
        · simpa using Nat.le_of_succ_le_succ h3
      show (CppBackend.strFind t needle).map (fun i => i + 1) = some (m + 1)
      rw [ht]
      rfl

theorem strFind_char_append (u v : List Char) (ch : Char) (hu : ch ∉ u) :
    CppBackend.strFind (u ++ ch :: v) [ch] = some u.length := by
  induction u with
  | nil =>
    rw [List.nil_append, CppBackend.strFind.eq_def, if_pos]
    · rfl
    · simp [List.isPrefixOf]
  | cons d u' ih =>
    have hne : ch ≠ d := List.ne_of_not_mem_cons hu
    have hu' : ch ∉ u' := List.not_mem_of_not_mem_cons hu
    rw [List.cons_append, CppBackend.strFind.eq_def, if_neg]
    · show (CppBackend.strFind (u' ++ ch :: v) [ch]).map (fun i => i + 1)
        = some (d :: u').length
      rw [ih hu']
      rfl
    · simp [List.isPrefixOf]
      exact fun h => hne h

theorem scanLine_extracts (a b c nm : List Char)
    (hFirst : ∀ i, i < a.length →
      CppBackend.getDataTok.isPrefixOf
        ((a ++ (CppBackend.getDataTok ++ (b ++ '"' :: (nm ++ '"' :: c)))).drop i)
        = false)
    (hb : '"' ∉ b) (hnm : '"' ∉ nm)
    (hlen : (a ++ (CppBackend.getDataTok ++ (b ++ '"' :: (nm ++ '"' :: c)))).length
      < SIZE_MOD) :
    CppBackend.scanLine (a ++ (CppBackend.getDataTok ++ (b ++ '"' :: (nm ++ '"' :: c))))
      = some nm := by
  set tok := CppBackend.getDataTok with htok
  set line := a ++ (tok ++ (b ++ '"' :: (nm ++ '"' :: c))) with hline
  have hquote_tok : '"' ∉ tok := by rw [htok]; decide
  have hlinelen : line.length
      = a.length + (tok.length + (b.length + (1 + (nm.length + (1 + c.length))))) := by
    rw [hline]
    simp only [List.length_append, List.length_cons]
    omega
  have hfind : CppBackend.strFind line tok = some a.length := by
    apply strFind_some
    · rw [hline, List.drop_left, List.isPrefixOf_iff_prefix]
      exact List.prefix_append tok _
    · exact hFirst
    · omega
  have hrest : line.drop a.length = tok ++ (b ++ '"' :: (nm ++ '"' :: c)) := by
    rw [hline, List.drop_left]
  have hstart : CppBackend.strFind (tok ++ (b ++ '"' :: (nm ++ '"' :: c))) ['"']
      = some (tok.length + b.length) := by
    have h0 := strFind_char_append (tok ++ b) (nm ++ '"' :: c) '"'
      (fun hmem => by
        rcases List.mem_append.mp hmem with hq | hq
        exacts [hquote_tok hq, hb hq])
    rw [List.append_assoc, List.length_append] at h0
    exact h0
  have hmodA : (tok.length + b.length + 1) % SIZE_MOD = tok.length + b.length + 1 := by
    apply Nat.mod_eq_of_lt
    omega
  have hmodB : (a.length + (tok.length + b.length) + 1) % SIZE_MOD
      = a.length + (tok.length + b.length) + 1 := by
    apply Nat.mod_eq_of_lt
    omega
  have hspA : tok ++ (b ++ '"' :: (nm ++ '"' :: c))
      = (tok ++ (b ++ ['"'])) ++ (nm ++ '"' :: c) := by
    simp
  have hlenA : tok.length + b.length + 1 = (tok ++ (b ++ ['"'])).length := by
    simp only [List.length_append, List.length_cons, List.length_nil]
    omega
  have hdropRest : (tok ++ (b ++ '"' :: (nm ++ '"' :: c))).drop
      (tok.length + b.length + 1) = nm ++ '"' :: c := by
    rw [hspA, hlenA, List.drop_left]
  have hspB : line = (a ++ (tok ++ (b ++ ['"']))) ++ (nm ++ '"' :: c) := by
    rw [hline]
    simp
  have hlenB : a.length + (tok.length + b.length) + 1
      = (a ++ (tok ++ (b ++ ['"']))).length := by
    simp only [List.length_append, List.length_cons, List.length_nil]
    omega
  have hdropLine : line.drop (a.length + (tok.length + b.length) + 1)
      = nm ++ '"' :: c := by
    rw [hspB, hlenB]
    rw [List.drop_left]
  have hend : CppBackend.strFind (nm ++ '"' :: c) ['"'] = some nm.length :=
    strFind_char_append nm c '"' hnm
  simp only [CppBackend.scanLine, hfind]
  rw [hrest, hstart]
  simp only [Option.getD_some]
  rw [hmodA, hmodB, hdropRest, hdropLine, hend]
  simp only [Option.getD_some]
  rw [List.take_left]

theorem getlinesAux_no_newline (l acc : List Char) (h : '\n' ∉ l) :
    CppBackend.getlinesAux l acc = [acc.reverse ++ l] := by
  induction l generalizing acc with
  | nil => simp [CppBackend.getlinesAux]
  | cons ch t ih =>
    have h1 : '\n' ≠ ch := List.ne_of_not_mem_cons h
    have h2 : '\n' ∉ t := List.not_mem_of_not_mem_cons h
    rw [CppBackend.getlinesAux, if_neg (fun hh => h1 hh.symm), ih _ h2]
    simp

theorem getlinesAux_newline_split (l rest acc : List Char) (h : '\n' ∉ l) :
    CppBackend.getlinesAux (l ++ '\n' :: rest) acc
      = (acc.reverse ++ l) :: CppBackend.getlinesAux rest [] := by
  induction l generalizing acc with
  | nil => simp [CppBackend.getlinesAux]
  | cons ch t ih =>
    have h1 : '\n' ≠ ch := List.ne_of_not_mem_cons h
    have h2 : '\n' ∉ t := List.not_mem_of_not_mem_cons h
    rw [List.cons_append, CppBackend.getlinesAux, if_neg (fun hh => h1 hh.symm),
      ih _ h2]
    simp

theorem getlines_pair (l1 l2 : List Char) (h1 : '\n' ∉ l1) (h2 : '\n' ∉ l2)
    (hne : l2 ≠ []) :
    CppBackend.getlines (l1 ++ '\n' :: l2) = [l1, l2] := by
  have hlast : (l1 ++ '\n' :: l2).getLast? = some (l2.getLast hne) := by
    rw [List.getLast?_append,
      List.getLast?_eq_getLast_of_ne_nil (List.cons_ne_nil '\n' l2),
      List.getLast_cons hne]
    rfl
  have hlast2 : ¬((l1 ++ '\n' :: l2).getLast? = some '\n') := by
    rw [hlast]
    intro hcon
    have hgl : l2.getLast hne = '\n' := by injection hcon
    exact h2 (hgl ▸ List.getLast_mem hne)
  rw [CppBackend.getlines, if_neg (by simp), if_neg hlast2,
    getlinesAux_newline_split l1 l2 [] h1, getlinesAux_no_newline l2 [] h2]
  simp

/-- C8 counterexample: a preprocessor output consisting of the single line
`lib.getData("a"); lib.getData("b");`.  The claim predicts one name per
occurrence of the token (`["a", "b"]`), but the scanning loop only considers
the first occurrence of `lib.getData` in each line and returns `["a"]`. -/
theorem claim_C8_counterexample :
    CppBackend.udfDatasetNames
        ⟨true, true, ("lib.getData(\"a\"); lib.getData(\"b\");").toList⟩
      = [['a']] ∧
    CppBackend.udfDatasetNamesClaim
        ⟨true, true, ("lib.getData(\"a\"); lib.getData(\"b\");").toList⟩
      = [['a'], ['b']] ∧
    ¬(CppBackend.udfDatasetNames
        ⟨true, true, ("lib.getData(\"a\"); lib.getData(\"b\");").toList⟩
      = CppBackend.udfDatasetNamesClaim
        ⟨true, true, ("lib.getData(\"a\"); lib.getData(\"b\");").toList⟩) := by
  refine ⟨by decide, by decide, by decide⟩

/-- C8 amended: the scanner returns, for every line of the preprocessor's
output that contains `lib.getData`, the first double-quoted string literal
that follows the first occurrence of the token on that line — one name per
line, not one per occurrence — with duplicates preserved in line order.  Here
each of two lines decomposes as `prefix ++ token ++ middle ++ '"' ++ name ++
'"' ++ suffix` with the token not occurring earlier in the line and no stray
double quote before the literal. -/
theorem claim_C8_first_call_per_line (a b c nm a2 b2 c2 nm2 : List Char)
    (hFirst1 : ∀ i, i < a.length →
      CppBackend.getDataTok.isPrefixOf
        ((a ++ (CppBackend.getDataTok ++ (b ++ '"' :: (nm ++ '"' :: c)))).drop i)
        = false)
    (hb1 : '"' ∉ b) (hnm1 : '"' ∉ nm)
    (hlen1 : (a ++ (CppBackend.getDataTok ++ (b ++ '"' :: (nm ++ '"' :: c)))).length
      < SIZE_MOD)
    (hnl1 : '\n' ∉ a ++ (CppBackend.getDataTok ++ (b ++ '"' :: (nm ++ '"' :: c))))
    (hFirst2 : ∀ i, i < a2.length →
      CppBackend.getDataTok.isPrefixOf
        ((a2 ++ (CppBackend.getDataTok ++ (b2 ++ '"' :: (nm2 ++ '"' :: c2)))).drop i)
        = false)
    (hb2 : '"' ∉ b2) (hnm2 : '"' ∉ nm2)
    (hlen2 : (a2 ++ (CppBackend.getDataTok ++ (b2 ++ '"' :: (nm2 ++ '"' :: c2)))).length
      < SIZE_MOD)
    (hnl2 : '\n' ∉ a2 ++ (CppBackend.getDataTok ++ (b2 ++ '"' :: (nm2 ++ '"' :: c2)))) :
    CppBackend.udfDatasetNames ⟨true, true,
        (a ++ (CppBackend.getDataTok ++ (b ++ '"' :: (nm ++ '"' :: c)))) ++ '\n' ::
          (a2 ++ (CppBackend.getDataTok ++ (b2 ++ '"' :: (nm2 ++ '"' :: c2))))⟩
      = [nm, nm2] := by
  have hne2 : a2 ++ (CppBackend.getDataTok ++ (b2 ++ '"' :: (nm2 ++ '"' :: c2))) ≠ [] := by
    intro hcon
    have hlc := congrArg List.length hcon
    simp only [List.length_append, List.length_cons, List.length_nil] at hlc
    omega
  have e1 := scanLine_extracts a b c nm hFirst1 hb1 hnm1 hlen1
  have e2 := scanLine_extracts a2 b2 c2 nm2 hFirst2 hb2 hnm2 hlen2
  show (CppBackend.getlines
      ((a ++ (CppBackend.getDataTok ++ (b ++ '"' :: (nm ++ '"' :: c)))) ++ '\n' ::
        (a2 ++ (CppBackend.getDataTok ++ (b2 ++ '"' :: (nm2 ++ '"' :: c2)))))).filterMap
      CppBackend.scanLine = [nm, nm2]
  rw [getlines_pair _ _ hnl1 hnl2 hne2]
  simp [e1, e2]

/-- C8 witness: the spec's own example — `auto v = lib.getData<float>("temp");`
on one line and `lib.getData<int>("rh");` on the next — yields
`["temp", "rh"]`. -/
theorem claim_C8_witness :
    CppBackend.udfDatasetNames ⟨true, true,
        ("auto v = ".toList ++ (CppBackend.getDataTok ++ ("<float>(".toList ++ '"' ::
          ("temp".toList ++ '"' :: ");".toList)))) ++ '\n' ::
        ([] ++ (CppBackend.getDataTok ++ ("<int>(".toList ++ '"' ::
          ("rh".toList ++ '"' :: ");".toList))))⟩
      = ["temp".toList, "rh".toList] :=
  claim_C8_first_call_per_line "auto v = ".toList "<float>(".toList ");".toList
    "temp".toList [] "<int>(".toList ");".toList "rh".toList
    (by decide) (by decide) (by decide) (by decide) (by decide)
    (by decide) (by decide) (by decide) (by decide) (by decide)
